import Mathlib

/-!
Verification development for the ChessBI ingestion core: a shallow embedding
of `src/ingest/etag_cache.py`, `src/ingest/chesscom_client.py` and
`src/ingest/chesscom_ingest.py`, together with theorems settling the
specification's claims about them.
-/

namespace ChessBI

/-! ## JSON value model

Parsed JSON documents as produced by `json.load` / consumed by `json.dump`.
Numbers are modelled abstractly by `Int`; no claim depends on numerics of
JSON leaves. -/

inductive Json where
  | null
  | bool (b : Bool)
  | num (n : Int)
  | str (s : String)
  | arr (items : List Json)
  | obj (entries : List (String × Json))

/-! ## Validator Store: `src/ingest/etag_cache.py`

The backing file is modelled by its observable read outcome: missing,
unreadable (IOError), bytes that are not valid UTF-8 (UnicodeDecodeError
inside `json.load`), UTF-8 text that is not JSON (JSONDecodeError), or a
parsed JSON document.  Python dicts are modelled as insertion-ordered
association lists: lookup takes the first (unique) matching key,
assignment overwrites in place or appends. -/

inductive FileState where
  | missing
  | unreadable
  | undecodableBytes
  | invalidJson
  | content (j : Json)

/-- The one exception `load_etags` can let escape: a `UnicodeDecodeError`
raised by decoding a non-UTF-8 backing file; it is a `ValueError`, so the
`except (json.JSONDecodeError, IOError)` handler does not catch it. -/
inductive LoadError where
  | unicodeDecodeError

/-- Embeds `load_etags` (etag_cache.py lines 14-40): a missing file, an
IOError, or a JSONDecodeError yields the empty dict; a backing file whose
bytes are not valid UTF-8 raises an uncaught `UnicodeDecodeError`; a
non-dict document yields the empty dict; a JSON object is returned as-is
(only `isinstance(data, dict)` is checked, so values need not be
strings). -/
def load_etags : FileState → Except LoadError (List (String × Json))
  | .missing => .ok []
  | .unreadable => .ok []
  | .undecodableBytes => .error .unicodeDecodeError
  | .invalidJson => .ok []
  | .content j =>
    match j with
    | .obj entries => .ok entries
    | _ => .ok []

/-- Embeds `save_etags` (etag_cache.py lines 43-62): `json.dump` of a
string-to-string dict leaves the file holding the corresponding JSON
object. -/
def save_etags (etags : List (String × String)) : FileState :=
  .content (Json.obj (etags.map (fun p => (p.1, Json.str p.2))))

/-- Embeds `get_etag` (etag_cache.py lines 65-76): `etags.get(url)`. -/
def get_etag (etags : List (String × String)) (url : String) : Option String :=
  List.lookup url etags

/-- Embeds `set_etag` (etag_cache.py lines 79-88): `etags[url] = etag`,
overwriting in place when the key exists, appending otherwise. -/
def set_etag (etags : List (String × String)) (url etag : String) :
    List (String × String) :=
  if etags.any (fun p => p.1 == url) then
    etags.map (fun p => if p.1 == url then (p.1, etag) else p)
  else
    etags ++ [(url, etag)]

/-! ## Backoff: `ChessComClient._calculate_backoff`

Real arithmetic is modelled over `ℚ`; the jitter source `random.random()`
is an explicit parameter `u` ranging over `[0, 1)`. -/

/-- Embeds the non-jittered component `delay = base * 2 ** attempt`
(chesscom_client.py line 295). -/
def backoff_delay (base : ℚ) (attempt : ℕ) : ℚ :=
  base * 2 ^ attempt

/-- Embeds `_calculate_backoff` (chesscom_client.py lines 281-300):
`delay + delay * 0.25 * (2 * u - 1)` where `u` models `random.random()`. -/
def calculate_backoff (base : ℚ) (attempt : ℕ) (u : ℚ) : ℚ :=
  let delay := backoff_delay base attempt
  let jitter := delay * (1/4) * (2 * u - 1)
  delay + jitter

/-! ### Lemmas shared by the store theorems -/

lemma lookup_map_str (m : List (String × String)) (k : String) :
    List.lookup k (m.map (fun p => (p.1, Json.str p.2)))
      = (List.lookup k m).map Json.str := by
  induction m with
  | nil => rfl
  | cons a rest ih =>
    by_cases h : k == a.1
    · simp [List.lookup, h]
    · simp [List.lookup, h, ih]

/-- C6: the Validator Store round-trips: saving any string-to-string
mapping (whose serialization is valid UTF-8 JSON) and loading it back
reproduces the same mapping (each value re-read as the JSON string
saved, with identical per-key lookups); loading a missing file yields
the empty store, and loading a file containing a JSON array yields the
empty store rather than an error. -/
theorem store_roundtrip_and_degenerate_loads :
    (∀ m : List (String × String),
        load_etags (save_etags m) = .ok (m.map (fun p => (p.1, Json.str p.2))))
    ∧ (∀ m : List (String × String), ∀ k : String,
        (load_etags (save_etags m)).map (fun d => List.lookup k d)
          = .ok ((List.lookup k m).map Json.str))
    ∧ load_etags .missing = .ok []
    ∧ (∀ items : List Json,
        load_etags (.content (Json.arr items)) = .ok []) := by
  refine ⟨fun m => rfl, fun m k => ?_, rfl, fun items => rfl⟩
  have h : load_etags (save_etags m)
      = .ok (m.map (fun p => (p.1, Json.str p.2))) := rfl
  rw [h, Except.map, lookup_map_str]

/-- C5 counterexample: a backing file holding the JSON object with a
non-string value (the pair `"a" maps to 1`) is loaded as that very
mapping, not as the empty store the claim requires; and a backing file
of non-UTF-8 bytes — content that certainly does not parse as a flat
string-to-string mapping — raises an uncaught decode error instead of
yielding an empty store, so loading can fail. -/
theorem load_nonstring_values_cx :
    load_etags (.content (Json.obj [("a", Json.num 1)]))
        = .ok [("a", Json.num 1)]
    ∧ ([("a", Json.num 1)] : List (String × Json)) ≠ []
    ∧ load_etags .undecodableBytes = .error .unicodeDecodeError := by
  exact ⟨rfl, by simp, rfl⟩

/-- C5 amended: loading the Validator Store from a missing file, an
unreadable file, a UTF-8 file that is not JSON, or a non-object JSON
document yields the empty store; but a backing file holding any JSON
object is returned as that object's entries unchanged, whatever its
value types (only the dict-instance check is performed, values are not
checked to be strings), and a backing file whose bytes are not valid
UTF-8 makes loading fail with an uncaught `UnicodeDecodeError` (a
`ValueError` that neither the JSONDecodeError nor the IOError handler
catches). -/
theorem load_lenient_except_decode :
    load_etags .missing = .ok []
    ∧ load_etags .unreadable = .ok []
    ∧ load_etags .invalidJson = .ok []
    ∧ load_etags .undecodableBytes = .error .unicodeDecodeError
    ∧ load_etags (.content Json.null) = .ok []
    ∧ (∀ b, load_etags (.content (Json.bool b)) = .ok [])
    ∧ (∀ n, load_etags (.content (Json.num n)) = .ok [])
    ∧ (∀ s, load_etags (.content (Json.str s)) = .ok [])
    ∧ (∀ items, load_etags (.content (Json.arr items)) = .ok [])
    ∧ (∀ entries, load_etags (.content (Json.obj entries)) = .ok entries) :=
  ⟨rfl, rfl, rfl, rfl, rfl, fun _ => rfl, fun _ => rfl, fun _ => rfl,
   fun _ => rfl, fun _ => rfl⟩

/-- C7: for positive base the non-jittered backoff component
`base * 2 ^ attempt` strictly increases with the attempt number, and for
every jitter-source value `u` in `[0, 1)` the jittered delay differs from
the non-jittered component by at most 25 percent of it. -/
theorem backoff_monotone_and_jitter_bounded (base u : ℚ) (attempt : ℕ)
    (hb : 0 < base) (hu0 : 0 ≤ u) (hu1 : u < 1) :
    backoff_delay base attempt < backoff_delay base (attempt + 1)
    ∧ |calculate_backoff base attempt u - backoff_delay base attempt|
        ≤ (1/4) * backoff_delay base attempt := by
  have hpow : (0:ℚ) < 2 ^ attempt := by positivity
  have hdelay : 0 < backoff_delay base attempt := by
    unfold backoff_delay; positivity
  constructor
  · unfold backoff_delay
    rw [pow_succ]
    nlinarith
  · have hjit : calculate_backoff base attempt u - backoff_delay base attempt
        = backoff_delay base attempt * (1/4) * (2 * u - 1) := by
      unfold calculate_backoff; ring
    rw [hjit]
    have habs : |2 * u - 1| ≤ 1 := abs_le.mpr ⟨by linarith, by linarith⟩
    have hnn : (0:ℚ) ≤ backoff_delay base attempt * (1/4) := by positivity
    calc |backoff_delay base attempt * (1/4) * (2 * u - 1)|
        = backoff_delay base attempt * (1/4) * |2 * u - 1| := by
          rw [abs_mul, abs_of_nonneg hnn]
      _ ≤ backoff_delay base attempt * (1/4) * 1 := by
          exact mul_le_mul_of_nonneg_left habs hnn
      _ = (1/4) * backoff_delay base attempt := by ring

/-- C7 witness: the backoff theorem instantiated at base 1, attempt 0 and
jitter source 1/2. -/
theorem backoff_monotone_and_jitter_bounded_witness :
    backoff_delay 1 0 < backoff_delay 1 (0 + 1)
    ∧ |calculate_backoff 1 0 (1/2) - backoff_delay 1 0|
        ≤ (1/4) * backoff_delay 1 0 :=
  backoff_monotone_and_jitter_bounded 1 (1/2) 0 (by norm_num) (by norm_num)
    (by norm_num)

/-! ## Retry loop: `ChessComClient._request_with_retry`

The remote service is modelled as a function assigning to each attempt
index its observable outcome: an HTTP response with a status (and an
optional Retry-After header, which only influences the sleep, never the
result), a network-level failure (Timeout/ConnectionError), or any other
request exception.  The embedding returns both the final result and how
many requests were issued. -/

inductive Attempt where
  | response (status : Nat) (retryAfterHeader : Option String)
  | netFailure
  | otherFailure

/-- Errors raised by `_request_with_retry`: `ChessComAPIError status`,
the network-exhaustion `ChessComClientError`, the non-retried
request-exception `ChessComClientError`, and the unreachable final
`ChessComClientError` after the loop. -/
inductive ReqError where
  | apiError (status : Nat)
  | netExhausted
  | requestFailed
  | budgetSpent

/-- Embeds the body of the `while attempt <= self.max_retries` loop of
`_request_with_retry` (chesscom_client.py lines 193-279).  `fuel` counts
the remaining loop iterations permitted by the while-condition, so the
top-level call uses `fuel = maxRetries + 1` and maintains
`attempt + fuel = maxRetries + 1`; the Python retry condition
`attempt < self.max_retries` is written literally.  The result pairs the
returned status or raised error with the number of requests issued. -/
def retryLoop (resp : ℕ → Attempt) (allow_304 : Bool) (maxRetries : ℕ) :
    ℕ → ℕ → (Except ReqError ℕ) × ℕ
  | _, 0 => (.error .budgetSpent, 0)
  | attempt, fuel + 1 =>
    match resp attempt with
    | .response s _ =>
      if s = 304 ∧ allow_304 then
        (.ok 304, 1)
      else if s = 429 then
        if attempt < maxRetries then
          let r := retryLoop resp allow_304 maxRetries (attempt + 1) fuel
          (r.1, r.2 + 1)
        else
          (.error (.apiError 429), 1)
      else if 500 ≤ s ∧ s < 600 then
        if attempt < maxRetries then
          let r := retryLoop resp allow_304 maxRetries (attempt + 1) fuel
          (r.1, r.2 + 1)
        else
          (.error (.apiError s), 1)
      else if 400 ≤ s ∧ s < 500 then
        (.error (.apiError s), 1)
      else if 200 ≤ s ∧ s < 300 then
        (.ok s, 1)
      else
        (.error (.apiError s), 1)
    | .netFailure =>
      if attempt < maxRetries then
        let r := retryLoop resp allow_304 maxRetries (attempt + 1) fuel
        (r.1, r.2 + 1)
      else
        (.error .netExhausted, 1)
    | .otherFailure => (.error .requestFailed, 1)

/-- Embeds `_request_with_retry` itself: the loop entered with
`attempt = 0` and the while-condition budget `maxRetries + 1`. -/
def request_with_retry (resp : ℕ → Attempt) (allow_304 : Bool)
    (maxRetries : ℕ) : (Except ReqError ℕ) × ℕ :=
  retryLoop resp allow_304 maxRetries 0 (maxRetries + 1)

/-- Decides whether an attempt outcome is a retryable condition: HTTP 429,
HTTP 5xx, or a network-level failure. -/
def retryableAttempt : Attempt → Bool
  | .response s _ => s == 429 || (500 ≤ s && s < 600)
  | .netFailure => true
  | .otherFailure => false

/-- Maps the final (exhausting) attempt outcome to the error the loop
raises on budget exhaustion: `ChessComAPIError 429` for rate limiting,
`ChessComAPIError status` for a 5xx status, the network-exhaustion
client error for a network failure. -/
def exhaustionError : Attempt → ReqError
  | .response s _ => .apiError s
  | _ => .netExhausted

lemma retryLoop_all_retryable (resp : ℕ → Attempt) (allow_304 : Bool)
    (maxRetries : ℕ) :
    ∀ fuel attempt, attempt + fuel = maxRetries →
      (∀ n, attempt ≤ n → n ≤ maxRetries → retryableAttempt (resp n) = true) →
      retryLoop resp allow_304 maxRetries attempt (fuel + 1)
        = (.error (exhaustionError (resp maxRetries)), fuel + 1) := by
  intro fuel
  induction fuel with
  | zero =>
    intro attempt hsum hall
    have ha : attempt = maxRetries := by omega
    subst ha
    have hr := hall attempt le_rfl le_rfl
    unfold retryLoop
    cases hresp : resp attempt with
    | response s ra =>
      rw [hresp] at hr
      simp only [retryableAttempt] at hr
      have hs : s = 429 ∨ (500 ≤ s ∧ s < 600) := by
        rcases Bool.or_eq_true_iff.mp hr with h | h
        · exact Or.inl (eq_of_beq h)
        · rcases Bool.and_eq_true_iff.mp h with ⟨h1, h2⟩
          exact Or.inr ⟨by exact_mod_cast of_decide_eq_true h1,
            by exact_mod_cast of_decide_eq_true h2⟩
      have hnotlt : ¬ attempt < attempt := lt_irrefl attempt
      rcases hs with h429 | h5xx
      · subst h429
        simp [hnotlt, exhaustionError, hresp]
      · have hne304 : ¬ (s = 304 ∧ allow_304 = true) := by
          rintro ⟨h, _⟩; omega
        have hne429 : ¬ s = 429 := by omega
        simp [hne304, hne429, h5xx, hnotlt, exhaustionError, hresp]
    | netFailure =>
      have hnotlt : ¬ attempt < attempt := lt_irrefl attempt
      simp [hnotlt, exhaustionError, hresp]
    | otherFailure =>
      rw [hresp] at hr
      simp [retryableAttempt] at hr
  | succ fuel ih =>
    intro attempt hsum hall
    have hlt : attempt < maxRetries := by omega
    have hr := hall attempt le_rfl (by omega)
    have ihr := ih (attempt + 1) (by omega)
      (fun n hn hn2 => hall n (by omega) hn2)
    unfold retryLoop
    cases hresp : resp attempt with
    | response s ra =>
      rw [hresp] at hr
      simp only [retryableAttempt] at hr
      have hs : s = 429 ∨ (500 ≤ s ∧ s < 600) := by
        rcases Bool.or_eq_true_iff.mp hr with h | h
        · exact Or.inl (eq_of_beq h)
        · rcases Bool.and_eq_true_iff.mp h with ⟨h1, h2⟩
          exact Or.inr ⟨by exact_mod_cast of_decide_eq_true h1,
            by exact_mod_cast of_decide_eq_true h2⟩
      rcases hs with h429 | h5xx
      · subst h429
        simp [hlt, ihr]
      · have hne304 : ¬ (s = 304 ∧ allow_304 = true) := by
          rintro ⟨h, _⟩; omega
        have hne429 : ¬ s = 429 := by omega
        simp [hne304, hne429, h5xx, hlt, ihr]
    | netFailure =>
      simp [hlt, ihr]
    | otherFailure =>
      rw [hresp] at hr
      simp [retryableAttempt] at hr

/-- C4: when every attempt up to the budget meets a retryable condition
(HTTP 429, HTTP 5xx, or a network failure), the request makes exactly
`maxRetries + 1` attempts — the initial try plus `maxRetries` retries,
never more, never fewer — and then raises the matching exhaustion error:
`ChessComAPIError 429` for rate limiting, `ChessComAPIError status` for a
5xx status, or the network-exhaustion client error. -/
theorem retry_budget_exact (resp : ℕ → Attempt) (allow_304 : Bool)
    (maxRetries : ℕ)
    (hall : ∀ n, n ≤ maxRetries → retryableAttempt (resp n) = true) :
    (request_with_retry resp allow_304 maxRetries).2 = maxRetries + 1
    ∧ (request_with_retry resp allow_304 maxRetries).1
        = .error (exhaustionError (resp maxRetries)) := by
  have h := retryLoop_all_retryable resp allow_304 maxRetries maxRetries 0
    (by omega) (fun n _ hn2 => hall n hn2)
  unfold request_with_retry
  rw [h]
  exact ⟨rfl, rfl⟩

/-- C4 witness: with every attempt failing at the network level and a
budget of two retries, exactly three attempts occur and the
network-exhaustion error is raised. -/
theorem retry_budget_exact_witness :
    (request_with_retry (fun _ => .netFailure) false 2).2 = 2 + 1
    ∧ (request_with_retry (fun _ => .netFailure) false 2).1
        = .error (exhaustionError ((fun _ => Attempt.netFailure) 2)) :=
  retry_budget_exact (fun _ => .netFailure) false 2 (fun _ _ => rfl)

/-! ## Orchestrator: `src/ingest/chesscom_ingest.py`

The fetch client is abstracted as a function from the URL and the
conditional-request validator to the observable outcome of
`get_month_archive`: either a raised client error or the returned triple
`(status_code, data, new_etag)`.  Disk writes are modelled by
accumulating `(path, data)` pairs. -/

/-- Exceptions `get_month_archive` can raise: `ChessComAPIError status`,
the network-exhaustion `ChessComClientError`, the non-retried
request-exception `ChessComClientError`, and the invalid-JSON-body
`ChessComClientError` (a malformed success body). -/
inductive ClientErr where
  | apiError (status : Nat)
  | netExhausted
  | requestFailed
  | invalidJson

/-- Observable outcome of one `get_month_archive` call. -/
inductive FetchResult where
  | ok (status : Nat) (data : Option Json) (newEtag : Option String)
  | err (e : ClientErr)

/-- Errors that abort `run_chesscom_ingest`: a propagated client
exception, or a Python `TypeError`-class runtime error (e.g. joining a
`None` month key at the selection print, or taking `len` of an unsized
value). -/
inductive RunError where
  | client (e : ClientErr)
  | typeError

/-- Embeds `_extract_year_month` (chesscom_ingest.py lines 147-162): the
regex `/(\d\d\d\d)/(\d\d)$` anchored at the end of the URL, yielding
`YYYY-MM` on a match and `None` otherwise. -/
def extract_year_month (url : String) : Option String :=
  match url.data.drop (url.data.length - 8) with
  | [s1, y1, y2, y3, y4, s2, m1, m2] =>
    if s1 == '/' && y1.isDigit && y2.isDigit && y3.isDigit && y4.isDigit
        && s2 == '/' && m1.isDigit && m2.isDigit then
      some (String.mk [y1, y2, y3, y4, '-', m1, m2])
    else
      none
  | _ => none

/-- Embeds `_get_output_path` (chesscom_ingest.py lines 165-177):
`os.path.join(out_dir, "chesscom", username, year_month + ".json")`. -/
def get_output_path (out_dir username year_month : String) : String :=
  out_dir ++ "/chesscom/" ++ username ++ "/" ++ year_month ++ ".json"

/-- Stable ascending insertion used to model `list.sort()` on strings. -/
def insertSorted (a : String) : List String → List String
  | [] => [a]
  | b :: rest => if a ≤ b then a :: b :: rest else b :: insertSorted a rest

/-- Models `archive_urls.sort()` (chesscom_ingest.py line 62): stable
ascending lexicographic sort. -/
def sortStrings : List String → List String
  | [] => []
  | a :: rest => insertSorted a (sortStrings rest)

/-- Embeds the `since` filter (chesscom_ingest.py lines 65-72): keep a URL
when its extracted month key is truthy (a non-empty string) and is `≥`
the filter. -/
def filterSince (urls : List String) (since : String) : List String :=
  urls.filter fun url =>
    match extract_year_month url with
    | some ym => ym != "" && decide (since ≤ ym)
    | none => false

/-- Sorted-and-filtered archive list (chesscom_ingest.py lines 62-72); the
Python guard `if since:` treats both `None` and the empty string as
absent. -/
def selectBase (archives : List String) (since : Option String) :
    List String :=
  let sorted := sortStrings archives
  match since with
  | some s => if s = "" then sorted else filterSince sorted s
  | none => sorted

/-- Python slice `l[i:]` for an arbitrary integer start index: a negative
index counts from the end and clamps at zero. -/
def pySliceFrom (l : List String) (i : Int) : List String :=
  l.drop (if i < 0 then max (i + l.length) 0 else min i (l.length : Int)).toNat

/-- Embeds the truncation `if len(archive_urls) > max_months:
archive_urls = archive_urls[-max_months:]` (chesscom_ingest.py lines
74-76). -/
def truncateWindow (urls : List String) (maxMonths : Int) : List String :=
  if maxMonths < (urls.length : Int) then pySliceFrom urls (-maxMonths)
  else urls

/-- The Selection Window: sorted, since-filtered, truncated archive URL
list (chesscom_ingest.py lines 61-76). -/
def selectionWindow (archives : List String) (maxMonths : Int)
    (since : Option String) : List String :=
  truncateWindow (selectBase archives since) maxMonths

/-- C3 counterexample: with `max_months = 0` the filtered, sorted
singleton list exceeds the bound, yet the Python slice `l[-0:]` keeps the
whole list, so the Selection Window does not have length
`maxResources = 0`. -/
theorem truncation_zero_bound_cx :
    (0 : Int) < (["a"] : List String).length
    ∧ truncateWindow ["a"] 0 = ["a"]
    ∧ truncateWindow ["a"] 0 ≠ [] := by
  refine ⟨by decide, rfl, by simp [truncateWindow, pySliceFrom]⟩

/-- C3 amended: for every positive `maxResources` bound, a filtered,
sorted list of length at most the bound passes through truncation
unchanged, and a longer list is truncated to exactly the bound, equal to
the trailing (most recent) slice of the list, never a prefix.  (With a
zero or negative bound the Python slice `l[-max_months:]` keeps the whole
list or drops a leading prefix instead.) -/
theorem truncation_keeps_recent_suffix (l : List String) (m : Int)
    (hm : 1 ≤ m) :
    ((l.length : Int) ≤ m → truncateWindow l m = l)
    ∧ (m < (l.length : Int) →
        ((truncateWindow l m).length : Int) = m
        ∧ truncateWindow l m = l.drop (l.length - m.toNat)) := by
  constructor
  · intro hle
    unfold truncateWindow
    rw [if_neg (by omega)]
  · intro hlt
    unfold truncateWindow
    rw [if_pos hlt]
    unfold pySliceFrom
    have hneg : -m < (0 : Int) := by omega
    rw [if_pos hneg]
    rw [show (max (-m + (l.length : Int)) 0).toNat = l.length - m.toNat
      from by omega]
    constructor
    · rw [List.length_drop]; omega
    · rfl

/-- C3 witness: the amended truncation theorem instantiated at the
two-element list with bound 1: the window is the trailing singleton. -/
theorem truncation_keeps_recent_suffix_witness :
    (((["a", "b"] : List String).length : Int) ≤ 1 →
      truncateWindow ["a", "b"] 1 = ["a", "b"])
    ∧ ((1 : Int) < (["a", "b"] : List String).length →
        ((truncateWindow ["a", "b"] 1).length : Int) = 1
        ∧ truncateWindow ["a", "b"] 1
            = (["a", "b"] : List String).drop
                ((["a", "b"] : List String).length - (1 : Int).toNat)) :=
  truncation_keeps_recent_suffix ["a", "b"] 1 (by norm_num)

/-! ### Per-resource processing loop (chesscom_ingest.py lines 82-132) -/

/-- Mutable state threaded through the per-resource loop: the in-memory
ETag dict, the two month lists, the files written so far, and the game
total. -/
structure LoopState where
  etags : List (String × String)
  fetched : List String
  unchanged : List String
  written : List (String × Json)
  total : Nat

/-- Python `len` on a JSON value: defined for sized values (strings,
arrays, objects), a `TypeError` otherwise. -/
def pyLen : Json → Option Nat
  | .str s => some s.length
  | .arr items => some items.length
  | .obj entries => some entries.length
  | _ => none

/-- Embeds `len(data.get("games", []))` (chesscom_ingest.py line 105):
`data.get` demands a dict (else `AttributeError`), an absent field
defaults to the empty list, and `len` of an unsized field raises
`TypeError`; both runtime errors are `none`. -/
def gamesCountPy : Json → Option Nat
  | .obj entries =>
    match entries.find? (fun p => p.1 == "games") with
    | some p => pyLen p.2
    | none => some 0
  | _ => none

/-- Embeds one iteration of the `for url in archive_urls` loop
(chesscom_ingest.py lines 86-119): skip a URL with no month key; let any
exception of the fetch propagate; on 304 record the month as unchanged;
on 200 count games, write the file, record the month as fetched and
update the ETag dict when a truthy new ETag was returned; log and skip
any other status. -/
def processUrl (username out_dir : String)
    (fetch : String → Option String → FetchResult)
    (st : LoopState) (url : String) : Except RunError LoopState :=
  match extract_year_month url with
  | none => .ok st
  | some year_month =>
    match fetch url (get_etag st.etags url) with
    | .err e => .error (.client e)
    | .ok status data newEtag =>
      if status = 304 then
        .ok { st with unchanged := st.unchanged ++ [year_month] }
      else if status = 200 then
        match data with
        | none => .error .typeError
        | some d =>
          match gamesCountPy d with
          | none => .error .typeError
          | some game_count =>
            let st1 : LoopState :=
              { st with
                written := st.written
                  ++ [(get_output_path out_dir username year_month, d)],
                fetched := st.fetched ++ [year_month],
                total := st.total + game_count }
            match newEtag with
            | some e =>
              if e = "" then .ok st1
              else .ok { st1 with etags := set_etag st1.etags url e }
            | none => .ok st1
      else
        .ok st

/-- The whole per-resource loop, sequentially threading the state and
propagating any raised error. -/
def processAll (username out_dir : String)
    (fetch : String → Option String → FetchResult) :
    LoopState → List String → Except RunError LoopState
  | st, [] => .ok st
  | st, url :: rest =>
    match processUrl username out_dir fetch st url with
    | .error e => .error e
    | .ok st' => processAll username out_dir fetch st' rest

/-- The Summary dictionary returned by `run_chesscom_ingest`
(chesscom_ingest.py lines 125-132); `months_selected` is a list of
optional strings because `_extract_year_month` can yield `None`. -/
structure Summary where
  username : String
  months_selected : List (Option String)
  months_fetched : List String
  months_unchanged : List String
  total_games : Nat
  out_dir : String

/-- Observable outcome of a completed run: the Summary, the finally
persisted ETag dict, and the output files written. -/
structure RunResult where
  summary : Summary
  finalEtags : List (String × String)
  written : List (String × Json)

/-- Embeds `run_chesscom_ingest` (chesscom_ingest.py lines 18-144) from
the point where the archive index is available: build the Selection
Window, compute `selected_months` (whose summary print
`', '.join(selected_months)` raises `TypeError` whenever any month key is
`None`), run the per-resource loop from the loaded ETag dict, and return
the Summary together with the persisted dict and written files. -/
def run_chesscom_ingest (username out_dir : String) (maxMonths : Int)
    (since : Option String) (fetch : String → Option String → FetchResult)
    (etags0 : List (String × String)) (archives : List String) :
    Except RunError RunResult :=
  let window := selectionWindow archives maxMonths since
  let selected_months := window.map extract_year_month
  if selected_months.any (fun m => m.isNone) then
    .error .typeError
  else
    match processAll username out_dir fetch
        (LoopState.mk etags0 [] [] [] 0) window with
    | .error e => .error e
    | .ok st =>
      .ok (RunResult.mk
        (Summary.mk username selected_months st.fetched st.unchanged
          st.total out_dir)
        st.etags st.written)

/-- C1 counterexample: a malformed success body (the invalid-JSON client
error, which is not a remote, network or transport error) raised for the
only selected resource is not caught by the loop: the run aborts with
that error instead of continuing and producing a Summary. -/
theorem format_error_aborts_run_cx :
    run_chesscom_ingest "u" "out" 3 none (fun _ _ => .err .invalidJson) []
        ["https://api.chess.com/pub/player/u/games/2023/01"]
      = .error (.client .invalidJson) := by
  rfl

/-- C1 amended: every exception raised by the fetch of a selected
resource — remote, network, transport, and equally the content/format
invalid-JSON error — propagates out of the per-resource loop and aborts
the run; no per-resource failure is caught and logged. -/
theorem fetch_errors_always_propagate (username out_dir url ym : String)
    (fetch : String → Option String → FetchResult) (st : LoopState)
    (rest : List String) (e : ClientErr)
    (hym : extract_year_month url = some ym)
    (hf : fetch url (get_etag st.etags url) = .err e) :
    processUrl username out_dir fetch st url = .error (.client e)
    ∧ processAll username out_dir fetch st (url :: rest)
        = .error (.client e) := by
  have hstep : processUrl username out_dir fetch st url
      = .error (.client e) := by
    unfold processUrl
    rw [hym, hf]
  exact ⟨hstep, by unfold processAll; rw [hstep]⟩

/-- C1 witness: the propagation theorem instantiated at a concrete
resource whose fetch raises the invalid-JSON error. -/
theorem fetch_errors_always_propagate_witness :
    processUrl "u" "out" (fun _ _ => .err .invalidJson)
        (LoopState.mk [] [] [] [] 0)
        "https://api.chess.com/pub/player/u/games/2023/01"
      = .error (.client .invalidJson)
    ∧ processAll "u" "out" (fun _ _ => .err .invalidJson)
        (LoopState.mk [] [] [] [] 0)
        ["https://api.chess.com/pub/player/u/games/2023/01"]
      = .error (.client .invalidJson) :=
  fetch_errors_always_propagate "u" "out"
    "https://api.chess.com/pub/player/u/games/2023/01" "2023-01"
    (fun _ _ => .err .invalidJson) (LoopState.mk [] [] [] [] 0) []
    ClientErr.invalidJson rfl rfl

/-- C2 counterexample: the only resource returns Unchanged (304) carrying
the new validator v2 while v1 is cached; after the run the persisted
Store still maps the resource to v1, not v2 — the orchestrator does not
update the Store on Unchanged. -/
theorem unchanged_ignores_new_validator_cx :
    (run_chesscom_ingest "u" "out" 3 none
        (fun _ _ => .ok 304 none (some "v2"))
        [("https://api.chess.com/pub/player/u/games/2023/01", "v1")]
        ["https://api.chess.com/pub/player/u/games/2023/01"]).map
      (fun r => get_etag r.finalEtags
        "https://api.chess.com/pub/player/u/games/2023/01")
      = .ok (some "v1")
    ∧ ("v1" : String) ≠ "v2" := by
  exact ⟨rfl, by decide⟩

/-- C2 amended: on an Unchanged (304) fetch outcome the orchestrator
never touches the Store, even when the response carries a new validator;
Store updates happen only on Fresh (200) outcomes that carry a truthy
validator. -/
theorem unchanged_never_updates_store (username out_dir url ym : String)
    (fetch : String → Option String → FetchResult) (st : LoopState)
    (data : Option Json) (newEtag : Option String)
    (hym : extract_year_month url = some ym)
    (hf : fetch url (get_etag st.etags url) = .ok 304 data newEtag) :
    processUrl username out_dir fetch st url
      = .ok { st with unchanged := st.unchanged ++ [ym] } := by
  unfold processUrl
  rw [hym, hf]
  rfl

/-- C2 amended witness: the no-update theorem instantiated at a concrete
304 outcome carrying validator v2 while v1 is cached. -/
theorem unchanged_never_updates_store_witness :
    processUrl "u" "out" (fun _ _ => .ok 304 none (some "v2"))
        (LoopState.mk [("https://a/2023/01", "v1")] [] [] [] 0)
        "https://a/2023/01"
      = .ok (LoopState.mk [("https://a/2023/01", "v1")] []
          (([] : List String) ++ ["2023-01"]) [] 0) :=
  unchanged_never_updates_store "u" "out" "https://a/2023/01" "2023-01"
    (fun _ _ => .ok 304 none (some "v2"))
    (LoopState.mk [("https://a/2023/01", "v1")] [] [] [] 0) none
    (some "v2") rfl rfl

/-- C8: a successful fetch that returns no new validator never clears the
stored one: whenever processing a resource completes after an Unchanged
(304) outcome or after a Fresh (200) outcome carrying no validator, the
Store's entry for that resource is exactly what it was before the
fetch. -/
theorem no_validator_never_cleared (username out_dir url ym : String)
    (fetch : String → Option String → FetchResult) (st st' : LoopState)
    (data : Option Json) (newEtag : Option String)
    (hym : extract_year_month url = some ym)
    (hf : fetch url (get_etag st.etags url) = .ok 304 data newEtag
          ∨ fetch url (get_etag st.etags url) = .ok 200 data none)
    (hrun : processUrl username out_dir fetch st url = .ok st') :
    get_etag st'.etags url = get_etag st.etags url := by
  rcases hf with hf | hf
  · unfold processUrl at hrun
    rw [hym, hf] at hrun
    simp at hrun
    subst hrun
    rfl
  · unfold processUrl at hrun
    rw [hym, hf] at hrun
    cases data with
    | none => simp at hrun
    | some d =>
      cases hg : gamesCountPy d with
      | none => simp [hg] at hrun
      | some c =>
        simp [hg] at hrun
        subst hrun
        rfl

/-- C8 witness: the frame theorem instantiated at a concrete 304 outcome
with validator v1 cached: the entry still reads v1 afterwards. -/
theorem no_validator_never_cleared_witness :
    get_etag (LoopState.mk [("https://a/2023/01", "v1")] []
        (([] : List String) ++ ["2023-01"]) [] 0).etags "https://a/2023/01"
      = get_etag (LoopState.mk [("https://a/2023/01", "v1")] [] [] [] 0).etags
          "https://a/2023/01" :=
  no_validator_never_cleared "u" "out" "https://a/2023/01" "2023-01"
    (fun _ _ => .ok 304 none none)
    (LoopState.mk [("https://a/2023/01", "v1")] [] [] [] 0)
    (LoopState.mk [("https://a/2023/01", "v1")] []
      (([] : List String) ++ ["2023-01"]) [] 0)
    none none rfl (Or.inl rfl) rfl

/-- C9 code bug: a selected resource whose URL carries no extractable
month key does not get skipped with a warning — `_extract_year_month`
returns `None`, that `None` lands in `selected_months`, and the selection
print's `', '.join(selected_months)` raises `TypeError`, aborting the
whole run before any resource is processed. -/
theorem unparsable_month_crashes_run :
    run_chesscom_ingest "u" "out" 3 none (fun _ _ => .ok 304 none none) []
        ["https://api.chess.com/pub/player/u/games/archives"]
      = .error .typeError := by
  rfl

/-! ### Run-level invariants (C10) -/

/-- The `games` field of a month archive document, when the document is a
JSON object. -/
def gamesField : Json → Option Json
  | .obj entries => (entries.find? (fun p => p.1 == "games")).map (fun p => p.2)
  | _ => none

/-- The length of a document's games array, zero when the field is
absent; this is the item count the Summary is specified to total. -/
def specGamesCount (d : Json) : Nat :=
  match gamesField d with
  | some (.arr items) => items.length
  | _ => 0

lemma gamesCountPy_eq_spec (d : Json) (c : Nat)
    (h : gamesCountPy d = some c)
    (hs : ∀ g, gamesField d = some g → ∃ items, g = Json.arr items) :
    c = specGamesCount d := by
  cases d with
  | obj entries =>
    cases hfind : entries.find? (fun p => p.1 == "games") with
    | none =>
      simp [gamesCountPy, hfind] at h
      simp [specGamesCount, gamesField, hfind]
      omega
    | some p =>
      simp [gamesCountPy, hfind] at h
      obtain ⟨items, hitems⟩ := hs p.2 (by simp [gamesField, hfind])
      rw [hitems] at h
      simp [pyLen] at h
      simp [specGamesCount, gamesField, hfind, hitems]
      omega
  | null => simp [gamesCountPy] at h
  | bool b => simp [gamesCountPy] at h
  | num n => simp [gamesCountPy] at h
  | str s => simp [gamesCountPy] at h
  | arr items => simp [gamesCountPy] at h

lemma processUrl_cases (username out_dir : String)
    (fetch : String → Option String → FetchResult) (st st1 : LoopState)
    (url : String)
    (h : processUrl username out_dir fetch st url = .ok st1) :
    (st1.fetched = st.fetched ∧ st1.unchanged = st.unchanged
      ∧ st1.written = st.written ∧ st1.total = st.total)
    ∨ (∃ ym, extract_year_month url = some ym
        ∧ st1.fetched = st.fetched ∧ st1.unchanged = st.unchanged ++ [ym]
        ∧ st1.written = st.written ∧ st1.total = st.total)
    ∨ (∃ ym d c, extract_year_month url = some ym
        ∧ gamesCountPy d = some c
        ∧ st1.fetched = st.fetched ++ [ym] ∧ st1.unchanged = st.unchanged
        ∧ st1.written = st.written
            ++ [(get_output_path out_dir username ym, d)]
        ∧ st1.total = st.total + c) := by
  cases hym : extract_year_month url with
  | none =>
    unfold processUrl at h
    rw [hym] at h
    cases h
    exact Or.inl ⟨rfl, rfl, rfl, rfl⟩
  | some ym =>
    unfold processUrl at h
    rw [hym] at h
    cases hf : fetch url (get_etag st.etags url) with
    | err e => rw [hf] at h; simp at h
    | ok status data newEtag =>
      rw [hf] at h
      by_cases h304 : status = 304
      · subst h304
        simp at h
        subst h
        exact Or.inr (Or.inl ⟨ym, rfl, rfl, rfl, rfl, rfl⟩)
      · by_cases h200 : status = 200
        · subst h200
          cases data with
          | none => simp at h
          | some d =>
            cases hg : gamesCountPy d with
            | none => simp [hg] at h
            | some c =>
              cases newEtag with
              | none =>
                simp [hg] at h
                subst h
                exact Or.inr (Or.inr ⟨ym, d, c, rfl, hg, rfl, rfl, rfl, rfl⟩)
              | some e =>
                by_cases he : e = ""
                · subst he
                  simp [hg] at h
                  subst h
                  exact Or.inr (Or.inr ⟨ym, d, c, rfl, hg, rfl, rfl, rfl, rfl⟩)
                · simp [hg, he] at h
                  subst h
                  exact Or.inr (Or.inr ⟨ym, d, c, rfl, hg, rfl, rfl, rfl, rfl⟩)
        · simp [h304, h200] at h
          subst h
          exact Or.inl ⟨rfl, rfl, rfl, rfl⟩

lemma processAll_deltas (username out_dir : String)
    (fetch : String → Option String → FetchResult) :
    ∀ (urls : List String) (st st' : LoopState),
      processAll username out_dir fetch st urls = .ok st' →
      ∃ df du dw,
        st'.fetched = st.fetched ++ df
        ∧ st'.unchanged = st.unchanged ++ du
        ∧ st'.written = st.written ++ dw
        ∧ df.length + du.length ≤ urls.length
        ∧ dw.length = df.length
        ∧ (∀ ym, ym ∈ df ∨ ym ∈ du →
            ∃ url, url ∈ urls ∧ extract_year_month url = some ym)
        ∧ (∀ p, p ∈ dw → ∃ c, gamesCountPy p.2 = some c)
        ∧ st'.total
            = st.total + (dw.map (fun p => (gamesCountPy p.2).getD 0)).sum
  | [], st, st', h => by
    cases h
    exact ⟨[], [], [], by simp, by simp, by simp, by simp, by simp,
      fun ym hm => by simp at hm, fun p hp => by simp at hp, by simp⟩
  | url :: rest, st, st', h => by
    unfold processAll at h
    cases hstep : processUrl username out_dir fetch st url with
    | error e => rw [hstep] at h; simp at h
    | ok st1 =>
      rw [hstep] at h
      obtain ⟨df, du, dw, h1, h2, h3, h4, h5, h6, h7, h8⟩ :=
        processAll_deltas username out_dir fetch rest st1 st' h
      rcases processUrl_cases username out_dir fetch st st1 url hstep with
        ⟨e1, e2, e3, e4⟩ | ⟨ym, hym, e1, e2, e3, e4⟩
        | ⟨ym, d, c, hym, hc, e1, e2, e3, e4⟩
      · refine ⟨df, du, dw, ?_, ?_, ?_, by simp; omega, h5, ?_, h7, ?_⟩
        · rw [h1, e1]
        · rw [h2, e2]
        · rw [h3, e3]
        · exact fun ymx hm =>
            let ⟨u, hu, he⟩ := h6 ymx hm
            ⟨u, List.mem_cons_of_mem _ hu, he⟩
        · rw [h8, e4]
      · refine ⟨df, ym :: du, dw, ?_, ?_, ?_, by simp; omega, h5, ?_, h7, ?_⟩
        · rw [h1, e1]
        · rw [h2, e2]; simp
        · rw [h3, e3]
        · intro ymx hm
          rcases hm with hm | hm
          · exact
              let ⟨u, hu, he⟩ := h6 ymx (Or.inl hm)
              ⟨u, List.mem_cons_of_mem _ hu, he⟩
          · rcases List.mem_cons.mp hm with hm | hm
            · exact ⟨url, List.mem_cons_self url rest, hm ▸ hym⟩
            · exact
                let ⟨u, hu, he⟩ := h6 ymx (Or.inr hm)
                ⟨u, List.mem_cons_of_mem _ hu, he⟩
        · rw [h8, e4]
      · refine ⟨ym :: df, du, (get_output_path out_dir username ym, d) :: dw,
          ?_, ?_, ?_, by simp; omega, by simp [h5], ?_, ?_, ?_⟩
        · rw [h1, e1]; simp
        · rw [h2, e2]
        · rw [h3, e3]; simp
        · intro ymx hm
          rcases hm with hm | hm
          · rcases List.mem_cons.mp hm with hm | hm
            · exact ⟨url, List.mem_cons_self url rest, hm ▸ hym⟩
            · exact
                let ⟨u, hu, he⟩ := h6 ymx (Or.inl hm)
                ⟨u, List.mem_cons_of_mem _ hu, he⟩
          · exact
              let ⟨u, hu, he⟩ := h6 ymx (Or.inr hm)
              ⟨u, List.mem_cons_of_mem _ hu, he⟩
        · intro p hp
          rcases List.mem_cons.mp hp with hp | hp
          · exact ⟨c, by rw [hp]; exact hc⟩
          · exact h7 p hp
        · rw [h8, e4]
          simp [hc]
          omega

/-- C10: in every completed run the fetched and unchanged month lists
together contain at most one entry per selected URL, every month key in
either list is the extracted month key of some URL of the Selection
Window, each fetched month corresponds to exactly one written file, and
— whenever each written document's games field, if present, is an array —
the Summary's total game count equals the sum over the written months of
the length of that month's games array (zero when absent), hence is
non-negative by type. -/
theorem run_summary_invariants (username out_dir : String) (maxMonths : Int)
    (since : Option String) (fetch : String → Option String → FetchResult)
    (etags0 : List (String × String)) (archives : List String)
    (res : RunResult)
    (hrun : run_chesscom_ingest username out_dir maxMonths since fetch etags0
        archives = .ok res)
    (hshape : ∀ p, p ∈ res.written →
        ∀ g, gamesField p.2 = some g → ∃ items, g = Json.arr items) :
    res.summary.months_fetched.length + res.summary.months_unchanged.length
        ≤ (selectionWindow archives maxMonths since).length
    ∧ (∀ ym, ym ∈ res.summary.months_fetched
          ∨ ym ∈ res.summary.months_unchanged →
        ∃ url, url ∈ selectionWindow archives maxMonths since
          ∧ extract_year_month url = some ym)
    ∧ res.summary.months_fetched.length = res.written.length
    ∧ res.summary.total_games
        = (res.written.map (fun p => specGamesCount p.2)).sum := by
  unfold run_chesscom_ingest at hrun
  by_cases hnone : ((selectionWindow archives maxMonths since).map
      extract_year_month).any (fun m => m.isNone)
  · rw [if_pos hnone] at hrun
    simp at hrun
  · rw [if_neg hnone] at hrun
    cases hall : processAll username out_dir fetch
        (LoopState.mk etags0 [] [] [] 0)
        (selectionWindow archives maxMonths since) with
    | error e => rw [hall] at hrun; simp at hrun
    | ok st =>
      rw [hall] at hrun
      cases hrun
      obtain ⟨df, du, dw, h1, h2, h3, h4, h5, h6, h7, h8⟩ :=
        processAll_deltas username out_dir fetch
          (selectionWindow archives maxMonths since)
          (LoopState.mk etags0 [] [] [] 0) st hall
      simp only [List.nil_append] at h1 h2 h3
      refine ⟨?_, ?_, ?_, ?_⟩
      · simp only [h1, h2]
        exact h4
      · intro ym hm
        simp only [h1, h2] at hm
        exact h6 ym hm
      · simp only [h1, h3, h5]
      · simp only [h3] at hshape
        simp only [h8, h3, h1, Nat.zero_add]
        have hmap : dw.map (fun p => (gamesCountPy p.2).getD 0)
            = dw.map (fun p => specGamesCount p.2) := by
          apply List.map_congr_left
          intro p hp
          obtain ⟨c, hc⟩ := h7 p hp
          rw [hc]
          simpa using gamesCountPy_eq_spec p.2 c hc (hshape p hp)
        rw [hmap]

/-- C10 witness: a completed single-resource run whose fetched document
has no games field; the invariants hold with a total of zero. -/
theorem run_summary_invariants_witness :
    (RunResult.mk
        (Summary.mk "u" [some "2023-01"] ["2023-01"] [] 0 "out") []
        [("out/chesscom/u/2023-01.json",
          Json.obj [])]).summary.months_fetched.length
      + (RunResult.mk
          (Summary.mk "u" [some "2023-01"] ["2023-01"] [] 0 "out") []
          [("out/chesscom/u/2023-01.json",
            Json.obj [])]).summary.months_unchanged.length
      ≤ (selectionWindow ["https://a/2023/01"] 3 none).length
    ∧ (∀ ym, ym ∈ (RunResult.mk
          (Summary.mk "u" [some "2023-01"] ["2023-01"] [] 0 "out") []
          [("out/chesscom/u/2023-01.json",
            Json.obj [])]).summary.months_fetched
        ∨ ym ∈ (RunResult.mk
            (Summary.mk "u" [some "2023-01"] ["2023-01"] [] 0 "out") []
            [("out/chesscom/u/2023-01.json",
              Json.obj [])]).summary.months_unchanged →
        ∃ url, url ∈ selectionWindow ["https://a/2023/01"] 3 none
          ∧ extract_year_month url = some ym)
    ∧ (RunResult.mk
        (Summary.mk "u" [some "2023-01"] ["2023-01"] [] 0 "out") []
        [("out/chesscom/u/2023-01.json",
          Json.obj [])]).summary.months_fetched.length
      = (RunResult.mk
          (Summary.mk "u" [some "2023-01"] ["2023-01"] [] 0 "out") []
          [("out/chesscom/u/2023-01.json",
            Json.obj [])]).written.length
    ∧ (RunResult.mk
        (Summary.mk "u" [some "2023-01"] ["2023-01"] [] 0 "out") []
        [("out/chesscom/u/2023-01.json",
          Json.obj [])]).summary.total_games
      = ((RunResult.mk
          (Summary.mk "u" [some "2023-01"] ["2023-01"] [] 0 "out") []
          [("out/chesscom/u/2023-01.json",
            Json.obj [])]).written.map (fun p => specGamesCount p.2)).sum :=
  run_summary_invariants "u" "out" 3 none
    (fun _ _ => .ok 200 (some (Json.obj [])) none) [] ["https://a/2023/01"]
    (RunResult.mk (Summary.mk "u" [some "2023-01"] ["2023-01"] [] 0 "out") []
      [("out/chesscom/u/2023-01.json", Json.obj [])])
    rfl
    (by
      intro p hp g hg
      simp at hp
      subst hp
      simp [gamesField, List.find?] at hg)

end ChessBI
